import Mathlib

/-!
Shallow embedding of the Traffic-Light-Controller-by-Camera-Detection repository.

The repository has three Python source files:
* `sumo_code.py` — a SUMO/TraCI control loop (lanes `-E0_0`, `E1_0`, `E0_0`,
  phase change every 30 steps, no minimum-green tracking);
* `traffic_control.py` — a second SUMO control loop (lanes `lane1_0`,
  `lane2_0`, `lane3_0`, re-evaluation every 50 steps, `green_time` counter,
  switch only when the priority lane differs from the current green lane);
* `vehicle4.py` — per-lane video vehicle counters (blob size filter, counting
  line with dedup history, publication of frames/counts on a queue, and a
  display/aggregation consumer producing a final per-lane report).

External collaborators (TraCI, OpenCV, the file system) are modelled as
inputs: per-step lane counts are an environment function, a video is the list
of per-frame extracted bounding rectangles, and the stop event is a predicate
on iteration indices.
-/

/-- Association-list lookup used to model Python `dict[key]` /
`key in dict` on the static lane-to-phase mappings. -/
def lookupPhase (m : List (String × Nat)) (lane : String) : Option Nat :=
  (m.find? fun p => p.1 = lane).map (·.2)

/-- The maximum-selection loop shared verbatim by both
`get_lane_with_max_vehicles` implementations:
`max_count = 0; max_lane = None; for lane, count in lane_counts.items():
  if count > max_count: max_count = count; max_lane = lane`. -/
def maxLoop : List (String × Nat) → Nat → Option String → Nat × Option String
  | [], max_count, max_lane => (max_count, max_lane)
  | (lane, count) :: rest, max_count, max_lane =>
    if max_count < count then maxLoop rest count (some lane)
    else maxLoop rest max_count max_lane

/-- Spec-side definition: the maximum of the counts in a lane-counts mapping
(`max_count = max(counts)` in the spec's words). -/
def maxCount (counts : List (String × Nat)) : Nat :=
  counts.foldr (fun p m => max p.2 m) 0

namespace Sumo

/-- `LANE_PHASE_MAPPING` of `sumo_code.py`. -/
def LANE_PHASE_MAPPING : List (String × Nat) :=
  [("-E0_0", 0), ("E1_0", 2), ("E0_0", 4)]

/-- `count_vehicles_per_lane` of `sumo_code.py`; the three
`traci.lane.getLastStepVehicleNumber` results are the inputs `a b c`. -/
def count_vehicles_per_lane (a b c : Nat) : List (String × Nat) :=
  [("-E0_0", a), ("E1_0", b), ("E0_0", c)]

/-- `get_lane_with_max_vehicles` of `sumo_code.py`; `current_phase` is the
value `traci.trafficlight.getPhase("J2")` would return. -/
def get_lane_with_max_vehicles (lane_counts : List (String × Nat))
    (current_phase : Nat) : String :=
  match (maxLoop lane_counts 0 none).2 with
  | none =>
    if current_phase = 0 then "E1_0"
    else if current_phase = 2 then "E0_0"
    else "-E0_0"
  | some max_lane => max_lane

/-- `set_traffic_lights` of `sumo_code.py`: returns `some phase` when the
membership guard holds and `setPhase` is invoked, `none` when skipped. -/
def set_traffic_lights (green_lane : String) : Option Nat :=
  lookupPhase LANE_PHASE_MAPPING green_lane

/-- The loop state of `main` in `sumo_code.py`: the step counter and the
traffic-light phase last applied (initially the simulation's own phase). -/
structure MainState where
  step : Nat
  phase : Nat

/-- One iteration of the `main` loop of `sumo_code.py`.  `env` gives the three
per-lane vehicle counts at each step.  Returns the successor state and
`some p` exactly when the iteration invoked `setPhase` with phase `p`. -/
def tick (env : Nat → Nat × Nat × Nat) (s : MainState) : MainState × Option Nat :=
  let lane_counts := count_vehicles_per_lane (env s.step).1 (env s.step).2.1 (env s.step).2.2
  if s.step % 30 = 0 then
    let priority_lane := get_lane_with_max_vehicles lane_counts s.phase
    match set_traffic_lights priority_lane with
    | some p => ({ step := s.step + 1, phase := p }, some p)
    | none => ({ step := s.step + 1, phase := s.phase }, none)
  else
    ({ step := s.step + 1, phase := s.phase }, none)

/-- The state before iteration `n` of `sumo_code.py`'s `main` loop, starting
from step 0 with initial light phase `p0`. -/
def run (env : Nat → Nat × Nat × Nat) (p0 : Nat) : Nat → MainState
  | 0 => { step := 0, phase := p0 }
  | n + 1 => (tick env (run env p0 n)).1

/-- The `setPhase` call (if any) issued during iteration `n`. -/
def emit (env : Nat → Nat × Nat × Nat) (p0 : Nat) (n : Nat) : Option Nat :=
  (tick env (run env p0 n)).2

/-- Spec-side definition: the fixed cyclic fallback order of lanes in
`sumo_code.py` (`-E0_0 → E1_0 → E0_0 → -E0_0`). -/
def nextLane : String → String
  | "-E0_0" => "E1_0"
  | "E1_0" => "E0_0"
  | "E0_0" => "-E0_0"
  | l => l

end Sumo

namespace TrafficControl

/-- `LANE_PHASE_MAPPING` of `traffic_control.py`. -/
def LANE_PHASE_MAPPING : List (String × Nat) :=
  [("lane1_0", 0), ("lane2_0", 1), ("lane3_0", 2)]

/-- `count_vehicles_per_lane` of `traffic_control.py` (successful `try` path);
the three TraCI counts are the inputs `a b c`. -/
def count_vehicles_per_lane (a b c : Nat) : List (String × Nat) :=
  [("lane1_0", a), ("lane2_0", b), ("lane3_0", c)]

/-- `get_lane_with_max_vehicles` of `traffic_control.py`; `current_phase` is
the value `traci.trafficlight.getPhase("tls")` would return (the `except`
branch of the fallback is the unused `getD` default). -/
def get_lane_with_max_vehicles (lane_counts : List (String × Nat))
    (current_phase : Nat) : String :=
  let r := maxLoop lane_counts 0 none
  if r.2 = none ∨ r.1 = 0 then
    if current_phase = 0 then "lane2_0"
    else if current_phase = 1 then "lane3_0"
    else "lane1_0"
  else r.2.getD "lane1_0"

/-- `set_traffic_lights` of `traffic_control.py`: `some phase` when the
membership guard holds and `setPhase` is invoked, `none` when skipped. -/
def set_traffic_lights (green_lane : String) : Option Nat :=
  lookupPhase LANE_PHASE_MAPPING green_lane

/-- The loop state of `main` in `traffic_control.py`: `step`, `green_time`,
`current_green_lane` and the traffic-light phase last applied. -/
structure MainState where
  step : Nat
  green_time : Nat
  current_green_lane : Option String
  phase : Nat

/-- One iteration of the `main` loop of `traffic_control.py`.  Inside the
re-evaluation block `green_time` is set to 0; at the end of every iteration
`step += 1; green_time += 1`, hence the `0 + 1` in the re-evaluation arms. -/
def tick (env : Nat → Nat × Nat × Nat) (s : MainState) : MainState × Option Nat :=
  let lane_counts := count_vehicles_per_lane (env s.step).1 (env s.step).2.1 (env s.step).2.2
  if s.step % 50 = 0 ∨ 50 ≤ s.green_time then
    let priority_lane := get_lane_with_max_vehicles lane_counts s.phase
    if some priority_lane ≠ s.current_green_lane then
      match set_traffic_lights priority_lane with
      | some p =>
        ({ step := s.step + 1, green_time := 0 + 1,
           current_green_lane := some priority_lane, phase := p }, some p)
      | none =>
        ({ step := s.step + 1, green_time := 0 + 1,
           current_green_lane := some priority_lane, phase := s.phase }, none)
    else
      ({ step := s.step + 1, green_time := 0 + 1,
         current_green_lane := s.current_green_lane, phase := s.phase }, none)
  else
    ({ step := s.step + 1, green_time := s.green_time + 1,
       current_green_lane := s.current_green_lane, phase := s.phase }, none)

/-- The state before iteration `n` of `traffic_control.py`'s `main` loop
(`step = 0; green_time = 0; current_green_lane = None`, initial phase `p0`). -/
def run (env : Nat → Nat × Nat × Nat) (p0 : Nat) : Nat → MainState
  | 0 => { step := 0, green_time := 0, current_green_lane := none, phase := p0 }
  | n + 1 => (tick env (run env p0 n)).1

/-- The `setPhase` call (if any) issued during iteration `n`. -/
def emit (env : Nat → Nat × Nat × Nat) (p0 : Nat) (n : Nat) : Option Nat :=
  (tick env (run env p0 n)).2

/-- Spec-side definition: the fixed cyclic fallback order of lanes in
`traffic_control.py` (`lane1_0 → lane2_0 → lane3_0 → lane1_0`). -/
def nextLane : String → String
  | "lane1_0" => "lane2_0"
  | "lane2_0" => "lane3_0"
  | "lane3_0" => "lane1_0"
  | l => l

end TrafficControl

namespace Vehicle4

/-- A bounding box `(x, y, w, h)` as returned by `cv2.boundingRect`. -/
structure Rect where
  x : Nat
  y : Nat
  w : Nat
  h : Nat
deriving DecidableEq

/-- `center_handle` of `vehicle4.py`: `x1 = int(w/2); y1 = int(h/2);
cx = x + x1; cy = y + y1`. -/
def center_handle (x y w h : Nat) : Nat × Nat :=
  (x + w / 2, y + h / 2)

/-- The blob size filter and centroid extraction of the per-frame contour
loop (`min_width_rect = 80`, `min_height_rect = 80`,
`if w >= min_width_rect and h >= min_height_rect`): builds the `centers`
list for one frame from the extracted bounding rectangles. -/
def blobFilter (regions : List Rect) : List (Nat × Nat) :=
  (regions.filter fun r => decide (80 ≤ r.w) && decide (80 ≤ r.h)).map
    fun r => center_handle r.x r.y r.w r.h

/-- The per-lane counting state: `recently_counted` (centroid, frame-index
pairs) and `counter`. -/
structure CounterState where
  recently_counted : List ((Nat × Nat) × Nat)
  counter : Nat

/-- The dedup test against one retained record:
`abs(cx - prev_center[0]) < 30 and abs(cy - prev_center[1]) < 30 and
(frame_idx - prev_frame) < cooldown_frames` with `cooldown_frames = 15`. -/
def matchesPrev (frame_idx cx cy : Nat) (p : (Nat × Nat) × Nat) : Bool :=
  decide (((cx : Int) - (p.1.1 : Int)).natAbs < 30) &&
  decide (((cy : Int) - (p.1.2 : Int)).natAbs < 30) &&
  decide (frame_idx - p.2 < 15)

/-- The `already_counted` scan over `recently_counted`. -/
def already_counted (frame_idx cx cy : Nat)
    (recent : List ((Nat × Nat) × Nat)) : Bool :=
  recent.any (matchesPrev frame_idx cx cy)

/-- Processing of one centroid of the `for center in centers` loop:
candidate test `abs(cy - count_line_position) < offset`
(`count_line_position = 550`, `offset = 6`), dedup scan, and on acceptance
`counter += 1; recently_counted.append((center, frame_idx))`. -/
def processCenter (frame_idx : Nat) (s : CounterState) (c : Nat × Nat) :
    CounterState :=
  if ((c.2 : Int) - 550).natAbs < 6 then
    if already_counted frame_idx c.1 c.2 s.recently_counted then s
    else { recently_counted := s.recently_counted ++ [(c, frame_idx)],
           counter := s.counter + 1 }
  else s

/-- The per-frame pruning:
`recently_counted = [(c, f) for c, f in recently_counted
 if (frame_idx - f) < cooldown_frames]`. -/
def prune (frame_idx : Nat) (recent : List ((Nat × Nat) × Nat)) :
    List ((Nat × Nat) × Nat) :=
  recent.filter fun p => decide (frame_idx - p.2 < 15)

/-- One whole frame of counting work: the centroid loop followed by the
pruning of `recently_counted`. -/
def processFrame (s : CounterState) (frame_idx : Nat)
    (centers : List (Nat × Nat)) : CounterState :=
  let s1 := centers.foldl (processCenter frame_idx) s
  { s1 with recently_counted := prune frame_idx s1.recently_counted }

/-- Spec-side definition: a centroid is an accepted crossing in state `s` iff
it is a candidate (within the line band) and no retained record suppresses
it. -/
def acceptedCrossing (frame_idx : Nat) (s : CounterState) (c : Nat × Nat) :
    Bool :=
  decide (((c.2 : Int) - 550).natAbs < 6) &&
  !(already_counted frame_idx c.1 c.2 s.recently_counted)

/-- An item published on `count_queue`: `(window_name, frame, counter)`;
a frame payload of `none` is the terminal sentinel, a non-sentinel payload
carries the frame (represented by its extracted bounding rectangles). -/
abbrev Item := String × Option (List Rect) × Nat

/-- The `while not stop_event.is_set()` read/process/publish loop of
`vehicle_counter`.  `frames` is the remaining readable video content (its end
models `ret == False`), `stop` tells whether the stop event is set at a given
iteration index, `i` is the current `frame_idx` (incremented to `i + 1` after
a successful read).  Returns the published items and the final state. -/
def workerLoop (name : String) (stop : Nat → Bool) :
    List (List Rect) → Nat → CounterState → List Item × CounterState
  | [], _, s => ([], s)
  | f :: rest, i, s =>
    if stop i then ([], s)
    else
      let s1 := processFrame s (i + 1) (blobFilter f)
      let r := workerLoop name stop rest (i + 1) s1
      ((name, some f, s1.counter) :: r.1, r.2)

/-- The result of one `vehicle_counter` worker: the list of items it put on
`count_queue` and whether `cap.release()` was reached. -/
structure WorkerResult where
  published : List Item
  released : Bool

/-- `vehicle_counter` of `vehicle4.py`.  `file_exists` models
`os.path.exists(video_path)`, `opened` models `cap.isOpened()`; either
failure publishes `(window_name, None, 0)` and returns at once.  Otherwise
the loop runs, `cap.release()` is called, and `(window_name, None, counter)`
is published. -/
def vehicle_counter (name : String) (file_exists opened : Bool)
    (frames : List (List Rect)) (stop : Nat → Bool) : WorkerResult :=
  if !file_exists then { published := [(name, none, 0)], released := false }
  else if !opened then { published := [(name, none, 0)], released := false }
  else
    let r := workerLoop name stop frames 0 { recently_counted := [], counter := 0 }
    { published := r.1 ++ [(name, none, r.2.counter)], released := true }

/-- Python dict assignment `d[k] = v` on an association list: replaces the
value of an existing key in place, appends a new key at the end. -/
def updA : List (String × Nat) → String → Nat → List (String × Nat)
  | [], k, v => [(k, v)]
  | (k1, v1) :: rest, k, v =>
    if k1 = k then (k, v) :: rest else (k1, v1) :: updA rest k v

/-- Association-list lookup for the consumer's `final_counts` dict. -/
def lookupA : List (String × Nat) → String → Option Nat
  | [], _ => none
  | (k1, v1) :: rest, k => if k1 = k then some v1 else lookupA rest k

/-- Processing of one dequeued item in `display_frames`: a sentinel
(`frame is None`) closes the lane's window (when still open) and folds its
final count; a regular item records the lane's current count.  The state is
(`windows`, `final_counts`). -/
def dispStep (st : List String × List (String × Nat)) (it : Item) :
    List String × List (String × Nat) :=
  match it.2.1 with
  | none =>
    if it.1 ∈ st.1 then (st.1.erase it.1, updA st.2 it.1 it.2.2)
    else st
  | some _ => (st.1, updA st.2 it.1 it.2.2)

/-- `display_frames` up to the cancellation point: starting from
`windows = set(lane_list)` and `final_counts = {lane: 0 for lane in
lane_list}`, the consumer processes `processed`; on cancellation it drains
`queued` without processing any of it and reports `final_counts`. -/
def display_shutdown (lane_list : List String) (processed queued : List Item) :
    List (String × Nat) :=
  let final := processed.foldl dispStep (lane_list, lane_list.map fun l => (l, 0))
  let _drained := queued
  final.2

/-- Spec-side definition: the last count observed for `lane` among the
processed items, if any. -/
def lastCount (lane : String) : List Item → Option Nat
  | [] => none
  | it :: rest =>
    match lastCount lane rest with
    | some c => some c
    | none => if it.1 = lane then some it.2.2 else none

/-- The number of terminal sentinels for `lane` in a list of items. -/
def sentinels (lane : String) (items : List Item) : Nat :=
  (items.filter fun it => decide (it.1 = lane) && it.2.1.isNone).length

end Vehicle4

theorem maxCount_cons (p : String × Nat) (rest : List (String × Nat)) :
    maxCount (p :: rest) = max p.2 (maxCount rest) := rfl

theorem le_maxCount : ∀ (counts : List (String × Nat)) (p : String × Nat),
    p ∈ counts → p.2 ≤ maxCount counts
  | q :: rest, p, h => by
    rcases List.mem_cons.mp h with h1 | h2
    · subst h1
      rw [maxCount_cons]
      exact Nat.le_max_left _ _
    · rw [maxCount_cons]
      exact le_trans (le_maxCount rest p h2) (Nat.le_max_right _ _)

theorem maxLoop_fst : ∀ (counts : List (String × Nat)) (m : Nat) (ml : Option String),
    (maxLoop counts m ml).1 = max m (maxCount counts)
  | [], m, ml => by simp [maxLoop, maxCount]
  | (lane, count) :: rest, m, ml => by
    rw [maxCount_cons]
    by_cases h : m < count
    · rw [show maxLoop ((lane, count) :: rest) m ml = maxLoop rest count (some lane) from
        by simp [maxLoop, h]]
      rw [maxLoop_fst rest count (some lane)]
      simp only []
      omega
    · rw [show maxLoop ((lane, count) :: rest) m ml = maxLoop rest m ml from
        by simp [maxLoop, h]]
      rw [maxLoop_fst rest m ml]
      simp only []
      omega

theorem maxLoop_snd_of_le : ∀ (counts : List (String × Nat)) (m : Nat) (ml : Option String),
    maxCount counts ≤ m → (maxLoop counts m ml).2 = ml
  | [], _, _, _ => rfl
  | (lane, count) :: rest, m, ml, h => by
    rw [maxCount_cons] at h
    have hc : ¬ m < count := by omega
    rw [show maxLoop ((lane, count) :: rest) m ml = maxLoop rest m ml from
      by simp [maxLoop, hc]]
    exact maxLoop_snd_of_le rest m ml (by omega)

theorem maxLoop_find : ∀ (counts : List (String × Nat)) (m : Nat) (ml : Option String),
    m < maxCount counts →
    ∃ p, counts.find? (fun q => decide (q.2 = maxCount counts)) = some p ∧
      p.2 = maxCount counts ∧ (maxLoop counts m ml).2 = some p.1
  | [], m, ml, h => by simp [maxCount] at h
  | (lane, count) :: rest, m, ml, h => by
    rw [maxCount_cons] at h
    by_cases hc : count = maxCount ((lane, count) :: rest)
    · refine ⟨(lane, count), ?_, hc, ?_⟩
      · rw [List.find?_cons_of_pos]
        exact decide_eq_true hc
      · have hm : m < count := by rw [maxCount_cons] at hc; omega
        rw [show maxLoop ((lane, count) :: rest) m ml = maxLoop rest count (some lane) from
          by simp [maxLoop, hm]]
        have hrest : maxCount rest ≤ count := by rw [maxCount_cons] at hc; omega
        exact maxLoop_snd_of_le rest count (some lane) hrest
    · have hlt : count < maxCount ((lane, count) :: rest) := by
        rw [maxCount_cons]
        rw [maxCount_cons] at hc
        omega
      have heq : maxCount ((lane, count) :: rest) = maxCount rest := by
        rw [maxCount_cons] at hlt ⊢
        omega
      rw [heq] at hlt ⊢
      by_cases hm : m < count
      · obtain ⟨p, hf, hp2, hml⟩ := maxLoop_find rest count (some lane) hlt
        refine ⟨p, ?_, hp2, ?_⟩
        · rw [List.find?_cons_of_neg]
          · exact hf
          · simp; omega
        · rw [show maxLoop ((lane, count) :: rest) m ml = maxLoop rest count (some lane) from
            by simp [maxLoop, hm]]
          exact hml
      · obtain ⟨p, hf, hp2, hml⟩ := maxLoop_find rest m ml (by omega)
        refine ⟨p, ?_, hp2, ?_⟩
        · rw [List.find?_cons_of_neg]
          · exact hf
          · simp; omega
        · rw [show maxLoop ((lane, count) :: rest) m ml = maxLoop rest m ml from
            by simp [maxLoop, hm]]
          exact hml

/-- C1: for every lane-counts mapping with at least one strictly positive
count, both implementations of `get_lane_with_max_vehicles` return the lane
of the first entry (in iteration order) whose count equals the maximum
count; a later lane with an equal count never replaces an earlier one. -/
theorem first_max_selection (counts : List (String × Nat)) (phase : Nat)
    (h : ∃ p ∈ counts, 0 < p.2) :
    ∃ p, counts.find? (fun q => decide (q.2 = maxCount counts)) = some p ∧
      p.2 = maxCount counts ∧
      Sumo.get_lane_with_max_vehicles counts phase = p.1 ∧
      TrafficControl.get_lane_with_max_vehicles counts phase = p.1 := by
  obtain ⟨q, hq, hqpos⟩ := h
  have hpos : 0 < maxCount counts := lt_of_lt_of_le hqpos (le_maxCount counts q hq)
  obtain ⟨p, hf, hp2, hml⟩ := maxLoop_find counts 0 none hpos
  refine ⟨p, hf, hp2, ?_, ?_⟩
  · simp [Sumo.get_lane_with_max_vehicles, hml]
  · have hfst : (maxLoop counts 0 none).1 = maxCount counts := by
      rw [maxLoop_fst]; omega
    simp [TrafficControl.get_lane_with_max_vehicles, hml, hfst]
    omega

theorem maxCount_eq_zero : ∀ (counts : List (String × Nat)),
    (∀ p ∈ counts, p.2 = 0) → maxCount counts = 0
  | [], _ => rfl
  | q :: rest, h => by
    rw [maxCount_cons, h q (List.mem_cons_self q rest),
      maxCount_eq_zero rest fun p hp => h p (List.mem_cons_of_mem q hp)]
    simp

/-- C3: with no strictly positive count, both selectors fall back to the
round-robin rule: if the current phase is the one granting green to lane
`A` in the lane-phase mapping, the selection is the fixed next lane in the
cyclic order, and never `A` itself. -/
theorem round_robin_fallback :
    (∀ (counts : List (String × Nat)) (lane : String) (phase : Nat),
      (∀ p ∈ counts, p.2 = 0) → (lane, phase) ∈ Sumo.LANE_PHASE_MAPPING →
      Sumo.get_lane_with_max_vehicles counts phase = Sumo.nextLane lane ∧
      Sumo.nextLane lane ≠ lane) ∧
    (∀ (counts : List (String × Nat)) (lane : String) (phase : Nat),
      (∀ p ∈ counts, p.2 = 0) → (lane, phase) ∈ TrafficControl.LANE_PHASE_MAPPING →
      TrafficControl.get_lane_with_max_vehicles counts phase =
        TrafficControl.nextLane lane ∧
      TrafficControl.nextLane lane ≠ lane) := by
  constructor
  · intro counts lane phase h0 hmem
    have hml : (maxLoop counts 0 none).2 = none :=
      maxLoop_snd_of_le counts 0 none (le_of_eq (maxCount_eq_zero counts h0))
    have hsel : ∀ ph : Nat, Sumo.get_lane_with_max_vehicles counts ph =
        (if ph = 0 then "E1_0" else if ph = 2 then "E0_0" else "-E0_0") := by
      intro ph
      simp [Sumo.get_lane_with_max_vehicles, hml]
    simp only [Sumo.LANE_PHASE_MAPPING, List.mem_cons, List.not_mem_nil, or_false] at hmem
    rcases hmem with h | h | h <;>
      (rw [Prod.mk.injEq] at h; obtain ⟨hl, hp⟩ := h; subst hl; subst hp;
        rw [hsel]; exact ⟨rfl, by decide⟩)
  · intro counts lane phase h0 hmem
    have hml : (maxLoop counts 0 none).2 = none :=
      maxLoop_snd_of_le counts 0 none (le_of_eq (maxCount_eq_zero counts h0))
    have hsel : ∀ ph : Nat, TrafficControl.get_lane_with_max_vehicles counts ph =
        (if ph = 0 then "lane2_0" else if ph = 1 then "lane3_0" else "lane1_0") := by
      intro ph
      simp [TrafficControl.get_lane_with_max_vehicles, hml]
    simp only [TrafficControl.LANE_PHASE_MAPPING, List.mem_cons, List.not_mem_nil,
      or_false] at hmem
    rcases hmem with h | h | h <;>
      (rw [Prod.mk.injEq] at h; obtain ⟨hl, hp⟩ := h; subst hl; subst hp;
        rw [hsel]; exact ⟨rfl, by decide⟩)

/-- Witness for C3 at the spec's example: all counts zero, current phase 0
(green for the first lane of the cycle), in both control-loop variants. -/
theorem round_robin_fallback_witness :
    Sumo.get_lane_with_max_vehicles [("-E0_0", 0), ("E1_0", 0), ("E0_0", 0)] 0 = "E1_0" ∧
    TrafficControl.get_lane_with_max_vehicles
      [("lane1_0", 0), ("lane2_0", 0), ("lane3_0", 0)] 0 = "lane2_0" := by
  constructor
  · have h := round_robin_fallback.1 [("-E0_0", 0), ("E1_0", 0), ("E0_0", 0)]
      "-E0_0" 0 (by decide) (by decide)
    rw [h.1]
    rfl
  · have h := round_robin_fallback.2 [("lane1_0", 0), ("lane2_0", 0), ("lane3_0", 0)]
      "lane1_0" 0 (by decide) (by decide)
    rw [h.1]
    rfl

theorem tc_tick_char (env : Nat → Nat × Nat × Nat) (s : TrafficControl.MainState) :
    ((TrafficControl.tick env s).1).step = s.step + 1 ∧
    ((TrafficControl.tick env s).1).green_time =
      (if s.step % 50 = 0 ∨ 50 ≤ s.green_time then 1 else s.green_time + 1) ∧
    (((TrafficControl.tick env s).1).current_green_lane = none →
      s.current_green_lane = none ∧ ¬(s.step % 50 = 0 ∨ 50 ≤ s.green_time)) := by
  simp only [TrafficControl.tick]
  by_cases hg : s.step % 50 = 0 ∨ 50 ≤ s.green_time
  · rw [if_pos hg]
    by_cases hd : some (TrafficControl.get_lane_with_max_vehicles
        (TrafficControl.count_vehicles_per_lane (env s.step).1 (env s.step).2.1
          (env s.step).2.2) s.phase) ≠ s.current_green_lane
    · rw [if_pos hd]
      rcases hset : TrafficControl.set_traffic_lights
          (TrafficControl.get_lane_with_max_vehicles
            (TrafficControl.count_vehicles_per_lane (env s.step).1 (env s.step).2.1
              (env s.step).2.2) s.phase) with _ | p <;> simp [hg]
    · rw [if_neg hd]
      push_neg at hd
      simp [hg, ← hd]
  · rw [if_neg hg]
    simp [hg]

theorem tc_run_step (env : Nat → Nat × Nat × Nat) (p0 : Nat) :
    ∀ n, (TrafficControl.run env p0 n).step = n
  | 0 => rfl
  | n + 1 => by
    show (TrafficControl.tick env (TrafficControl.run env p0 n)).1.step = n + 1
    rw [(tc_tick_char env _).1, tc_run_step env p0 n]

theorem tc_run_green_time (env : Nat → Nat × Nat × Nat) (p0 : Nat) :
    ∀ n, (TrafficControl.run env p0 n).green_time =
      if n = 0 then 0 else (n - 1) % 50 + 1
  | 0 => rfl
  | n + 1 => by
    show (TrafficControl.tick env (TrafficControl.run env p0 n)).1.green_time = _
    rw [(tc_tick_char env _).2.1, tc_run_step env p0 n, tc_run_green_time env p0 n]
    by_cases h0 : n = 0
    · subst h0
      simp
    · rw [if_neg h0, if_neg (Nat.succ_ne_zero n)]
      by_cases hm : n % 50 = 0
      · rw [if_pos (Or.inl hm)]
        omega
      · have hng : ¬(n % 50 = 0 ∨ 50 ≤ (n - 1) % 50 + 1) := by
          push_neg
          exact ⟨hm, by omega⟩
        rw [if_neg hng]
        omega

theorem tc_run_current (env : Nat → Nat × Nat × Nat) (p0 : Nat) :
    ∀ n, (TrafficControl.run env p0 n).current_green_lane = none ↔ n = 0
  | 0 => by simp [TrafficControl.run]
  | n + 1 => by
    constructor
    · intro h
      obtain ⟨hc, hng⟩ := (tc_tick_char env (TrafficControl.run env p0 n)).2.2 h
      have hn : n = 0 := (tc_run_current env p0 n).mp hc
      exact absurd (Or.inl (by rw [tc_run_step env p0 n, hn])) hng
    · intro h
      exact absurd h (Nat.succ_ne_zero n)

/-- C2 (amended): in `traffic_control.py`'s control loop, a `setPhase` call
is issued at tick `n` only when the selected lane differs from
`current_green_lane`, and — whenever some lane is currently green — only
when the elapsed `green_time` has reached the 50-step minimum; if the
selected lane equals the current green lane no call occurs, and while a
lane is green with `green_time < 50` no call occurs. -/
theorem tc_actuator_guard (env : Nat → Nat × Nat × Nat) (p0 n : Nat) :
    ((TrafficControl.emit env p0 n).isSome = true →
      (TrafficControl.run env p0 n).current_green_lane ≠
        some (TrafficControl.get_lane_with_max_vehicles
          (TrafficControl.count_vehicles_per_lane (env n).1 (env n).2.1 (env n).2.2)
          (TrafficControl.run env p0 n).phase) ∧
      ((TrafficControl.run env p0 n).current_green_lane ≠ none →
        50 ≤ (TrafficControl.run env p0 n).green_time)) ∧
    ((TrafficControl.run env p0 n).current_green_lane =
        some (TrafficControl.get_lane_with_max_vehicles
          (TrafficControl.count_vehicles_per_lane (env n).1 (env n).2.1 (env n).2.2)
          (TrafficControl.run env p0 n).phase) →
      TrafficControl.emit env p0 n = none) ∧
    ((TrafficControl.run env p0 n).current_green_lane ≠ none ∧
        (TrafficControl.run env p0 n).green_time < 50 →
      TrafficControl.emit env p0 n = none) := by
  have hs := tc_run_step env p0 n
  have hgt := tc_run_green_time env p0 n
  have hcur := tc_run_current env p0 n
  unfold TrafficControl.emit
  simp only [TrafficControl.tick, hs]
  by_cases hg : n % 50 = 0 ∨ 50 ≤ (TrafficControl.run env p0 n).green_time
  · rw [if_pos hg]
    by_cases hd : some (TrafficControl.get_lane_with_max_vehicles
        (TrafficControl.count_vehicles_per_lane (env n).1 (env n).2.1 (env n).2.2)
        (TrafficControl.run env p0 n).phase) ≠
        (TrafficControl.run env p0 n).current_green_lane
    · rw [if_pos hd]
      refine ⟨fun _ => ⟨Ne.symm hd, fun hne => ?_⟩, fun h => absurd h.symm hd, fun h => ?_⟩
      · have hn0 : ¬ n = 0 := fun h0 => hne (hcur.mpr h0)
        rw [hgt, if_neg hn0]
        rw [hgt, if_neg hn0] at hg
        omega
      · obtain ⟨hne, hlt⟩ := h
        have hn0 : ¬ n = 0 := fun h0 => hne (hcur.mpr h0)
        rw [hgt, if_neg hn0] at hg hlt
        omega
    · rw [if_neg hd]
      push_neg at hd
      refine ⟨fun h => absurd h (by simp), fun _ => rfl, fun _ => rfl⟩
  · rw [if_neg hg]
    refine ⟨fun h => absurd h (by simp), fun _ => rfl, fun h => rfl⟩

/-- Witness for C2 (amended): with counts constantly `(1, 0, 0)`, after the
initial decision lane `lane1_0` is green with `green_time = 1 < 50`, so the
tick at step 1 issues no `setPhase` call. -/
theorem tc_actuator_guard_witness :
    TrafficControl.emit (fun _ => (1, 0, 0)) 0 1 = none :=
  (tc_actuator_guard (fun _ => (1, 0, 0)) 0 1).2.2 (by constructor <;> decide)

set_option maxRecDepth 4000 in
/-- C2 counterexample: `sumo_code.py`'s control loop issues a `setPhase`
call at step 30 although the selected lane (`-E0_0`) is already the lane
granted green (the light already holds phase 0, the phase
`LANE_PHASE_MAPPING` assigns to `-E0_0`), and the loop tracks no green
duration at all — refuting the claim that an actuator call occurs only when
the selected lane differs from the currently green one. -/
theorem sumo_redundant_setphase :
    Sumo.get_lane_with_max_vehicles (Sumo.count_vehicles_per_lane 5 0 0)
        (Sumo.run (fun _ => (5, 0, 0)) 4 30).phase = "-E0_0" ∧
    lookupPhase Sumo.LANE_PHASE_MAPPING "-E0_0" =
      some (Sumo.run (fun _ => (5, 0, 0)) 4 30).phase ∧
    Sumo.emit (fun _ => (5, 0, 0)) 4 30 = some 0 := by
  refine ⟨?_, ?_, ?_⟩ <;> decide

/-- C9: every lane identifier produced by `sumo_code.py`'s
`get_lane_with_max_vehicles` on counts from `count_vehicles_per_lane` (on
both the max-count path and the fallback path) is a key of
`LANE_PHASE_MAPPING`, so `set_traffic_lights` always passes its membership
guard and applies a phase. -/
theorem selected_lane_mapped (a b c phase : Nat) :
    Sumo.get_lane_with_max_vehicles (Sumo.count_vehicles_per_lane a b c) phase
      ∈ Sumo.LANE_PHASE_MAPPING.map Prod.fst ∧
    (Sumo.set_traffic_lights
      (Sumo.get_lane_with_max_vehicles (Sumo.count_vehicles_per_lane a b c) phase)).isSome
      = true := by
  simp only [Sumo.get_lane_with_max_vehicles, Sumo.count_vehicles_per_lane, maxLoop]
  split_ifs <;> exact ⟨by simp [Sumo.LANE_PHASE_MAPPING], rfl⟩

/-- C6 counterexample: a connected region whose bounding box is exactly
80 × 80 — which does not *exceed* the configured minimums — is accepted by
the blob filter and contributes the centroid `(40, 40)`. -/
theorem blob_accepts_boundary :
    Vehicle4.blobFilter [{ x := 0, y := 0, w := 80, h := 80 }] = [(40, 40)] ∧
    ¬(80 < ({ x := 0, y := 0, w := 80, h := 80 } : Vehicle4.Rect).w) ∧
    ¬(80 < ({ x := 0, y := 0, w := 80, h := 80 } : Vehicle4.Rect).h) :=
  ⟨rfl, by decide, by decide⟩

/-- C6 (amended): a region is accepted as a blob iff its width and height
are each at least the configured minimums (`w ≥ 80 ∧ h ≥ 80`, not strictly
greater); rejected regions contribute no centroid, and each accepted region
contributes the centroid `(x + w / 2, y + h / 2)` (integer division). -/
theorem blob_filter_spec (regions : List Vehicle4.Rect) (c : Nat × Nat) :
    c ∈ Vehicle4.blobFilter regions ↔
      ∃ r ∈ regions, 80 ≤ r.w ∧ 80 ≤ r.h ∧ c = (r.x + r.w / 2, r.y + r.h / 2) := by
  simp only [Vehicle4.blobFilter, Vehicle4.center_handle, List.mem_map, List.mem_filter,
    Bool.and_eq_true, decide_eq_true_eq]
  constructor
  · rintro ⟨r, ⟨hr, hw, hh⟩, hc⟩
    exact ⟨r, hr, hw, hh, hc.symm⟩
  · rintro ⟨r, hr, hw, hh, hc⟩
    exact ⟨r, ⟨hr, hw, hh⟩, hc.symm⟩

/-- Witness for C6 (amended) at the boundary region 80 × 80. -/
theorem blob_filter_spec_witness :
    (40, 40) ∈ Vehicle4.blobFilter [{ x := 0, y := 0, w := 80, h := 80 }] :=
  (blob_filter_spec [{ x := 0, y := 0, w := 80, h := 80 }] (40, 40)).mpr
    ⟨{ x := 0, y := 0, w := 80, h := 80 }, by decide, by decide, by decide, rfl⟩

/-- C5: each centroid-processing step increases the lane counter by exactly
1 when the crossing is accepted and by 0 otherwise, and a whole frame of
processing never decreases the counter. -/
theorem count_monotone :
    (∀ (fi : Nat) (s : Vehicle4.CounterState) (c : Nat × Nat),
      (Vehicle4.processCenter fi s c).counter =
        s.counter + (if Vehicle4.acceptedCrossing fi s c = true then 1 else 0)) ∧
    (∀ (s : Vehicle4.CounterState) (fi : Nat) (centers : List (Nat × Nat)),
      s.counter ≤ (Vehicle4.processFrame s fi centers).counter) := by
  have hstep : ∀ (fi : Nat) (s : Vehicle4.CounterState) (c : Nat × Nat),
      (Vehicle4.processCenter fi s c).counter =
        s.counter + (if Vehicle4.acceptedCrossing fi s c = true then 1 else 0) := by
    intro fi s c
    unfold Vehicle4.processCenter Vehicle4.acceptedCrossing
    by_cases h1 : ((c.2 : Int) - 550).natAbs < 6
    · rw [if_pos h1]
      by_cases h2 : Vehicle4.already_counted fi c.1 c.2 s.recently_counted = true
      · rw [if_pos h2]
        simp [h1, h2]
      · rw [if_neg h2]
        simp only [Bool.not_eq_true] at h2
        simp [h1, h2]
    · rw [if_neg h1]
      simp [h1]
  refine ⟨hstep, ?_⟩
  intro s fi centers
  have hfold : ∀ (cs : List (Nat × Nat)) (s0 : Vehicle4.CounterState),
      s0.counter ≤ (cs.foldl (Vehicle4.processCenter fi) s0).counter := by
    intro cs
    induction cs with
    | nil => intro s0; exact le_refl _
    | cons c rest ih =>
      intro s0
      rw [List.foldl_cons]
      calc s0.counter ≤ (Vehicle4.processCenter fi s0 c).counter := by
            rw [hstep]; omega
        _ ≤ _ := ih _
  exact hfold centers s

/-- C4: a centroid is a candidate crossing iff `|cy − 550| < 6`; a candidate
increments the counter by exactly 1 and appends a crossing record iff no
retained record matches it (`|cx − prev.cx| < 30 ∧ |cy − prev.cy| < 30 ∧
frame gap < 15`); consequently two candidate centroids within the 30 px
radius and the cooldown window count as one crossing, and two outside
either bound count as two. -/
theorem crossing_dedup :
    (∀ (fi : Nat) (s : Vehicle4.CounterState) (cx cy : Nat),
      ¬((cy : Int) - 550).natAbs < 6 → Vehicle4.processCenter fi s (cx, cy) = s) ∧
    (∀ (fi : Nat) (s : Vehicle4.CounterState) (cx cy : Nat),
      ((cy : Int) - 550).natAbs < 6 →
      ((∃ p ∈ s.recently_counted, Vehicle4.matchesPrev fi cx cy p = true) →
        Vehicle4.processCenter fi s (cx, cy) = s) ∧
      ((∀ p ∈ s.recently_counted, ¬Vehicle4.matchesPrev fi cx cy p = true) →
        Vehicle4.processCenter fi s (cx, cy) =
          { recently_counted := s.recently_counted ++ [((cx, cy), fi)],
            counter := s.counter + 1 })) ∧
    (∀ (cx1 cy1 cx2 cy2 f1 f2 : Nat),
      ((cy1 : Int) - 550).natAbs < 6 → ((cy2 : Int) - 550).natAbs < 6 → f1 ≤ f2 →
      ((cx2 : Int) - (cx1 : Int)).natAbs < 30 →
      ((cy2 : Int) - (cy1 : Int)).natAbs < 30 → f2 - f1 < 15 →
      (Vehicle4.processFrame (Vehicle4.processFrame
          { recently_counted := [], counter := 0 } f1 [(cx1, cy1)])
        f2 [(cx2, cy2)]).counter = 1) ∧
    (∀ (cx1 cy1 cx2 cy2 f1 f2 : Nat),
      ((cy1 : Int) - 550).natAbs < 6 → ((cy2 : Int) - 550).natAbs < 6 → f1 ≤ f2 →
      (30 ≤ ((cx2 : Int) - (cx1 : Int)).natAbs ∨
        30 ≤ ((cy2 : Int) - (cy1 : Int)).natAbs ∨ 15 ≤ f2 - f1) →
      (Vehicle4.processFrame (Vehicle4.processFrame
          { recently_counted := [], counter := 0 } f1 [(cx1, cy1)])
        f2 [(cx2, cy2)]).counter = 2) := by
  have hno : ∀ (fi : Nat) (s : Vehicle4.CounterState) (cx cy : Nat),
      ¬((cy : Int) - 550).natAbs < 6 → Vehicle4.processCenter fi s (cx, cy) = s := by
    intro fi s cx cy h
    dsimp only [Vehicle4.processCenter]
    rw [if_neg h]
  have hhit : ∀ (fi : Nat) (s : Vehicle4.CounterState) (cx cy : Nat),
      ((cy : Int) - 550).natAbs < 6 →
      (∃ p ∈ s.recently_counted, Vehicle4.matchesPrev fi cx cy p = true) →
      Vehicle4.processCenter fi s (cx, cy) = s := by
    intro fi s cx cy h hex
    have hac : Vehicle4.already_counted fi cx cy s.recently_counted = true := by
      unfold Vehicle4.already_counted
      rw [List.any_eq_true]
      exact hex
    dsimp only [Vehicle4.processCenter]
    rw [if_pos h, if_pos hac]
  have hyes : ∀ (fi : Nat) (s : Vehicle4.CounterState) (cx cy : Nat),
      ((cy : Int) - 550).natAbs < 6 →
      (∀ p ∈ s.recently_counted, ¬Vehicle4.matchesPrev fi cx cy p = true) →
      Vehicle4.processCenter fi s (cx, cy) =
        { recently_counted := s.recently_counted ++ [((cx, cy), fi)],
          counter := s.counter + 1 } := by
    intro fi s cx cy h hall
    have hac : ¬Vehicle4.already_counted fi cx cy s.recently_counted = true := by
      unfold Vehicle4.already_counted
      rw [List.any_eq_true]
      rintro ⟨p, hp, hm⟩
      exact hall p hp hm
    dsimp only [Vehicle4.processCenter]
    rw [if_pos h, if_neg hac]
  have hs1 : ∀ (cx1 cy1 f1 : Nat), ((cy1 : Int) - 550).natAbs < 6 →
      Vehicle4.processFrame { recently_counted := [], counter := 0 } f1 [(cx1, cy1)] =
        { recently_counted := [((cx1, cy1), f1)], counter := 1 } := by
    intro cx1 cy1 f1 h1
    unfold Vehicle4.processFrame
    rw [List.foldl_cons, List.foldl_nil,
      hyes f1 _ cx1 cy1 h1 (by intro p hp; exact absurd hp (List.not_mem_nil p))]
    simp [Vehicle4.prune]
  refine ⟨hno, fun fi s cx cy h => ⟨hhit fi s cx cy h, hyes fi s cx cy h⟩, ?_, ?_⟩
  · intro cx1 cy1 cx2 cy2 f1 f2 h1 h2 hle hdx hdy hgap
    rw [hs1 cx1 cy1 f1 h1]
    unfold Vehicle4.processFrame
    rw [List.foldl_cons, List.foldl_nil,
      hhit f2 _ cx2 cy2 h2 ⟨((cx1, cy1), f1), by simp, by
        unfold Vehicle4.matchesPrev
        simp only [Bool.and_eq_true, decide_eq_true_eq]
        exact ⟨⟨hdx, hdy⟩, hgap⟩⟩]
  · intro cx1 cy1 cx2 cy2 f1 f2 h1 h2 hle hfar
    have hm : Vehicle4.matchesPrev f2 cx2 cy2 ((cx1, cy1), f1) = false := by
      unfold Vehicle4.matchesPrev
      rcases hfar with h | h | h
      · have hx : ¬((cx2 : Int) - (cx1 : Int)).natAbs < 30 := by omega
        simp [hx]
      · have hy : ¬((cy2 : Int) - (cy1 : Int)).natAbs < 30 := by omega
        simp [hy]
      · have hf : ¬f2 - f1 < 15 := by omega
        simp [hf]
    rw [hs1 cx1 cy1 f1 h1]
    unfold Vehicle4.processFrame
    rw [List.foldl_cons, List.foldl_nil,
      hyes f2 _ cx2 cy2 h2 (by
        intro p hp
        rw [List.mem_singleton] at hp
        subst hp
        rw [hm]
        exact Bool.false_ne_true)]

/-- Witness for C4: the close pair `(100, 550)@10, (110, 552)@12` counts
once; the far pair `(100, 550)@10, (200, 552)@12` counts twice. -/
theorem crossing_dedup_witness :
    (Vehicle4.processFrame (Vehicle4.processFrame
        { recently_counted := [], counter := 0 } 10 [(100, 550)])
      12 [(110, 552)]).counter = 1 ∧
    (Vehicle4.processFrame (Vehicle4.processFrame
        { recently_counted := [], counter := 0 } 10 [(100, 550)])
      12 [(200, 552)]).counter = 2 := by
  constructor
  · exact crossing_dedup.2.2.1 100 550 110 552 10 12 (by decide) (by decide)
      (by decide) (by decide) (by decide) (by decide)
  · exact crossing_dedup.2.2.2 100 550 200 552 10 12 (by decide) (by decide)
      (by decide) (Or.inl (by decide))

/-- C10: all deduplication bounds are strict — a centroid with
`|cy − 550| = 6` is not a candidate; a candidate all of whose retained
records sit exactly on the 30 px or 15-frame boundary is counted as a new
crossing; pruning removes every record whose age has reached exactly the
cooldown window, so every retained record after pruning has age `< 15`. -/
theorem strict_bounds :
    (∀ (fi : Nat) (s : Vehicle4.CounterState) (cx cy : Nat),
      ((cy : Int) - 550).natAbs = 6 → Vehicle4.processCenter fi s (cx, cy) = s) ∧
    (∀ (fi : Nat) (s : Vehicle4.CounterState) (cx cy : Nat),
      ((cy : Int) - 550).natAbs < 6 →
      (∀ p ∈ s.recently_counted,
        ((cx : Int) - (p.1.1 : Int)).natAbs = 30 ∨
        ((cy : Int) - (p.1.2 : Int)).natAbs = 30 ∨ fi - p.2 = 15) →
      Vehicle4.processCenter fi s (cx, cy) =
        { recently_counted := s.recently_counted ++ [((cx, cy), fi)],
          counter := s.counter + 1 }) ∧
    (∀ (fi : Nat) (recent : List ((Nat × Nat) × Nat)) (p : (Nat × Nat) × Nat),
      p ∈ recent → fi - p.2 = 15 → p ∉ Vehicle4.prune fi recent) ∧
    (∀ (fi : Nat) (recent : List ((Nat × Nat) × Nat)) (p : (Nat × Nat) × Nat),
      p ∈ Vehicle4.prune fi recent → fi - p.2 < 15) := by
  refine ⟨?_, ?_, ?_, ?_⟩
  · intro fi s cx cy h
    dsimp only [Vehicle4.processCenter]
    rw [if_neg (by omega)]
  · intro fi s cx cy h hbd
    have hac : ¬Vehicle4.already_counted fi cx cy s.recently_counted = true := by
      unfold Vehicle4.already_counted
      rw [List.any_eq_true]
      rintro ⟨p, hp, hm⟩
      unfold Vehicle4.matchesPrev at hm
      simp only [Bool.and_eq_true, decide_eq_true_eq] at hm
      rcases hbd p hp with hb | hb | hb <;> omega
    dsimp only [Vehicle4.processCenter]
    rw [if_pos h, if_neg hac]
  · intro fi recent p hp hage hmem
    unfold Vehicle4.prune at hmem
    rw [List.mem_filter] at hmem
    have h15 := hmem.2
    simp only [decide_eq_true_eq] at h15
    omega
  · intro fi recent p hmem
    unfold Vehicle4.prune at hmem
    rw [List.mem_filter] at hmem
    have h15 := hmem.2
    simp only [decide_eq_true_eq] at h15
    exact h15

/-- Witness for C10: `cy = 556` (distance exactly 6) is ignored; a record at
x-distance exactly 30 and frame gap exactly 15 does not suppress a new
count; a record of age exactly 15 is pruned. -/
theorem strict_bounds_witness :
    Vehicle4.processCenter 1 { recently_counted := [], counter := 0 } (10, 556) =
      { recently_counted := [], counter := 0 } ∧
    Vehicle4.processCenter 20
        { recently_counted := [((100, 550), 5)], counter := 3 } (130, 550) =
      { recently_counted := [((100, 550), 5)] ++ [((130, 550), 20)], counter := 4 } ∧
    ((100, 550), 5) ∉ Vehicle4.prune 20 [((100, 550), 5)] := by
  refine ⟨?_, ?_, ?_⟩
  · exact strict_bounds.1 1 { recently_counted := [], counter := 0 } 10 556 (by decide)
  · exact strict_bounds.2.1 20 { recently_counted := [((100, 550), 5)], counter := 3 }
      130 550 (by decide) (by decide)
  · exact strict_bounds.2.2.1 20 [((100, 550), 5)] ((100, 550), 5) (by decide) (by decide)

theorem workerLoop_items (name : String) (stop : Nat → Bool) :
    ∀ (frames : List (List Vehicle4.Rect)) (i : Nat) (s : Vehicle4.CounterState),
      ∀ it ∈ (Vehicle4.workerLoop name stop frames i s).1, it.2.1.isSome = true
  | [], i, s => by simp [Vehicle4.workerLoop]
  | f :: rest, i, s => by
    intro it hit
    rw [Vehicle4.workerLoop] at hit
    by_cases hstop : stop i = true
    · rw [if_pos hstop] at hit
      exact absurd hit (List.not_mem_nil it)
    · rw [if_neg hstop] at hit
      dsimp only at hit
      rcases List.mem_cons.mp hit with h | h
      · subst h
        rfl
      · exact workerLoop_items name stop rest (i + 1) _ it h

/-- C8: every worker run publishes exactly one terminal sentinel and it is
the last published item; on a missing or unopenable video source the
sentinel carries count 0, nothing else is published and the source is not
released; otherwise the source is released and the sentinel carries the
final count of the counting loop. -/
theorem worker_terminal_sentinel (name : String) (fe op : Bool)
    (frames : List (List Vehicle4.Rect)) (stop : Nat → Bool) :
    ∃ pre c, (Vehicle4.vehicle_counter name fe op frames stop).published =
        pre ++ [(name, none, c)] ∧
      (∀ it ∈ pre, it.2.1.isSome = true) ∧
      ((fe = false ∨ op = false) → pre = [] ∧ c = 0 ∧
        (Vehicle4.vehicle_counter name fe op frames stop).released = false) ∧
      (fe = true → op = true →
        (Vehicle4.vehicle_counter name fe op frames stop).released = true ∧
        c = (Vehicle4.workerLoop name stop frames 0
              { recently_counted := [], counter := 0 }).2.counter) := by
  cases fe
  · refine ⟨[], 0, ?_, ?_, ?_, ?_⟩ <;> simp [Vehicle4.vehicle_counter]
  · cases op
    · refine ⟨[], 0, ?_, ?_, ?_, ?_⟩ <;> simp [Vehicle4.vehicle_counter]
    · refine ⟨(Vehicle4.workerLoop name stop frames 0
          { recently_counted := [], counter := 0 }).1,
        (Vehicle4.workerLoop name stop frames 0
          { recently_counted := [], counter := 0 }).2.counter, ?_, ?_, ?_, ?_⟩
      · simp [Vehicle4.vehicle_counter]
      · exact workerLoop_items name stop frames 0 _
      · rintro (h | h) <;> exact absurd h (by simp)
      · intro _ _
        exact ⟨by simp [Vehicle4.vehicle_counter], rfl⟩

/-- Witness for C8 at a concrete failed-open run. -/
theorem worker_terminal_sentinel_witness :
    ∃ pre c, (Vehicle4.vehicle_counter "Lane 1" false true [] fun _ => false).published =
        pre ++ [("Lane 1", none, c)] ∧
      (∀ it ∈ pre, it.2.1.isSome = true) ∧
      ((false = false ∨ true = false) → pre = [] ∧ c = 0 ∧
        (Vehicle4.vehicle_counter "Lane 1" false true [] fun _ => false).released = false) ∧
      (false = true → true = true →
        (Vehicle4.vehicle_counter "Lane 1" false true [] fun _ => false).released = true ∧
        c = (Vehicle4.workerLoop "Lane 1" (fun _ => false) [] 0
              { recently_counted := [], counter := 0 }).2.counter) :=
  worker_terminal_sentinel "Lane 1" false true [] fun _ => false

theorem lookupA_updA_self : ∀ (m : List (String × Nat)) (k : String) (v : Nat),
    Vehicle4.lookupA (Vehicle4.updA m k v) k = some v
  | [], k, v => by simp [Vehicle4.updA, Vehicle4.lookupA]
  | (k1, v1) :: rest, k, v => by
    by_cases h : k1 = k
    · simp [Vehicle4.updA, Vehicle4.lookupA, h]
    · simp [Vehicle4.updA, Vehicle4.lookupA, h, lookupA_updA_self rest k v]

theorem lookupA_updA_ne : ∀ (m : List (String × Nat)) (k k' : String) (v : Nat),
    k ≠ k' → Vehicle4.lookupA (Vehicle4.updA m k v) k' = Vehicle4.lookupA m k'
  | [], k, k', v, h => by simp [Vehicle4.updA, Vehicle4.lookupA, h]
  | (k1, v1) :: rest, k, k', v, h => by
    by_cases h1 : k1 = k
    · subst h1
      simp [Vehicle4.updA, Vehicle4.lookupA, h]
    · by_cases h2 : k1 = k'
      · have hk : ¬(k' = k) := fun hh => h hh.symm
        simp [Vehicle4.updA, Vehicle4.lookupA, h1, h2, hk]
      · simp [Vehicle4.updA, Vehicle4.lookupA, h1, h2, lookupA_updA_ne rest k k' v h]

theorem updA_keys : ∀ (m : List (String × Nat)) (k : String) (v : Nat),
    k ∈ m.map Prod.fst → (Vehicle4.updA m k v).map Prod.fst = m.map Prod.fst
  | [], k, v, h => absurd h (by simp)
  | (k1, v1) :: rest, k, v, h => by
    by_cases he : k1 = k
    · simp [Vehicle4.updA, he]
    · have hk : k ∈ rest.map Prod.fst := by
        simp only [List.map_cons, List.mem_cons] at h
        rcases h with h | h
        · exact absurd h.symm he
        · exact h
      simp [Vehicle4.updA, he, updA_keys rest k v hk]

theorem lookupA_init : ∀ (ll : List String) (l : String), l ∈ ll →
    Vehicle4.lookupA (ll.map fun x => (x, 0)) l = some 0
  | [], l, h => absurd h (List.not_mem_nil l)
  | x :: rest, l, h => by
    by_cases he : x = l
    · simp [Vehicle4.lookupA, he]
    · have hl : l ∈ rest := by
        rcases List.mem_cons.mp h with h1 | h1
        · exact absurd h1.symm he
        · exact h1
      simp [Vehicle4.lookupA, he, lookupA_init rest l hl]

theorem sentinels_cons_le (it : Vehicle4.Item) (rest : List Vehicle4.Item) (l : String) :
    Vehicle4.sentinels l rest ≤ Vehicle4.sentinels l (it :: rest) := by
  unfold Vehicle4.sentinels
  rw [List.filter_cons]
  by_cases h : (decide (it.1 = l) && it.2.1.isNone) = true
  · rw [if_pos h]
    exact Nat.le_succ _
  · rw [if_neg h]

theorem sentinels_cons_sent (l : String) (it : Vehicle4.Item)
    (rest : List Vehicle4.Item) (h1 : it.1 = l) (h2 : it.2.1 = none) :
    Vehicle4.sentinels l (it :: rest) = Vehicle4.sentinels l rest + 1 := by
  unfold Vehicle4.sentinels
  rw [List.filter_cons, if_pos (by simp [h1, h2])]
  simp

theorem sentinels_pos (l : String) (items : List Vehicle4.Item)
    (it : Vehicle4.Item) (hmem : it ∈ items) (h1 : it.1 = l) (h2 : it.2.1 = none) :
    1 ≤ Vehicle4.sentinels l items := by
  unfold Vehicle4.sentinels
  exact List.length_pos_of_mem (List.mem_filter.mpr ⟨hmem, by simp [h1, h2]⟩)

theorem dispFold_keys : ∀ (items : List Vehicle4.Item) (w : List String)
    (m : List (String × Nat)), (∀ it ∈ items, it.1 ∈ m.map Prod.fst) →
    ((items.foldl Vehicle4.dispStep (w, m)).2).map Prod.fst = m.map Prod.fst
  | [], _, _, _ => rfl
  | it :: rest, w, m, hm => by
    have hkey := updA_keys m it.1 it.2.2 (hm it (List.mem_cons_self it rest))
    have hrest : ∀ it2 ∈ rest, it2.1 ∈ (Vehicle4.updA m it.1 it.2.2).map Prod.fst := by
      intro it2 h2
      rw [hkey]
      exact hm it2 (List.mem_cons_of_mem it h2)
    rcases hf : it.2.1 with _ | fr
    · by_cases hin : it.1 ∈ w
      · have hd : Vehicle4.dispStep (w, m) it =
            (w.erase it.1, Vehicle4.updA m it.1 it.2.2) := by
          unfold Vehicle4.dispStep
          rw [hf, if_pos hin]
        rw [List.foldl_cons, hd, dispFold_keys rest _ _ hrest, hkey]
      · have hd : Vehicle4.dispStep (w, m) it = (w, m) := by
          unfold Vehicle4.dispStep
          rw [hf, if_neg hin]
        rw [List.foldl_cons, hd,
          dispFold_keys rest w m fun it2 h2 => hm it2 (List.mem_cons_of_mem it h2)]
    · have hd : Vehicle4.dispStep (w, m) it = (w, Vehicle4.updA m it.1 it.2.2) := by
        unfold Vehicle4.dispStep
        rw [hf]
      rw [List.foldl_cons, hd, dispFold_keys rest _ _ hrest, hkey]

theorem dispFold_lookup : ∀ (items : List Vehicle4.Item) (w : List String)
    (m : List (String × Nat)),
    (∀ it ∈ items, it.2.1 = none → it.1 ∈ w) →
    (∀ it ∈ items, it.2.1 = none → Vehicle4.sentinels it.1 items ≤ 1) →
    ∀ l, Vehicle4.lookupA (items.foldl Vehicle4.dispStep (w, m)).2 l =
      (match Vehicle4.lastCount l items with
        | some c => some c
        | none => Vehicle4.lookupA m l)
  | [], w, m, _, _, l => by simp [Vehicle4.lastCount]
  | it :: rest, w, m, hw, hone, l => by
    have hone' : ∀ it2 ∈ rest, it2.2.1 = none → Vehicle4.sentinels it2.1 rest ≤ 1 := by
      intro it2 h2 hs2
      exact le_trans (sentinels_cons_le it rest it2.1)
        (hone it2 (List.mem_cons_of_mem it h2) hs2)
    have hfinish : ∀ w' : List String,
        Vehicle4.lookupA (rest.foldl Vehicle4.dispStep
            (w', Vehicle4.updA m it.1 it.2.2)).2 l =
          (match Vehicle4.lastCount l rest with
            | some c => some c
            | none => Vehicle4.lookupA (Vehicle4.updA m it.1 it.2.2) l) →
        Vehicle4.lookupA (rest.foldl Vehicle4.dispStep
            (w', Vehicle4.updA m it.1 it.2.2)).2 l =
          (match Vehicle4.lastCount l (it :: rest) with
            | some c => some c
            | none => Vehicle4.lookupA m l) := by
      intro w' hih
      rw [hih, Vehicle4.lastCount]
      rcases hlast : Vehicle4.lastCount l rest with _ | c
      · by_cases hl : it.1 = l
        · subst hl
          simp [lookupA_updA_self]
        · simp [hl, lookupA_updA_ne m it.1 l it.2.2 hl]
      · simp
    rcases hf : it.2.1 with _ | fr
    · have hin : it.1 ∈ w := hw it (List.mem_cons_self it rest) hf
      have hw' : ∀ it2 ∈ rest, it2.2.1 = none → it2.1 ∈ w.erase it.1 := by
        intro it2 h2 hs2
        have hne : it2.1 ≠ it.1 := by
          intro heq
          have hc1 : Vehicle4.sentinels it.1 (it :: rest) =
              Vehicle4.sentinels it.1 rest + 1 :=
            sentinels_cons_sent it.1 it rest rfl hf
          have hc2 : 1 ≤ Vehicle4.sentinels it.1 rest :=
            sentinels_pos it.1 rest it2 h2 heq hs2
          have hc3 := hone it (List.mem_cons_self it rest) hf
          omega
        exact (List.mem_erase_of_ne hne).mpr (hw it2 (List.mem_cons_of_mem it h2) hs2)
      have hd : Vehicle4.dispStep (w, m) it =
          (w.erase it.1, Vehicle4.updA m it.1 it.2.2) := by
        unfold Vehicle4.dispStep
        rw [hf, if_pos hin]
      rw [List.foldl_cons, hd]
      exact hfinish (w.erase it.1)
        (dispFold_lookup rest (w.erase it.1) (Vehicle4.updA m it.1 it.2.2) hw' hone' l)
    · have hd : Vehicle4.dispStep (w, m) it = (w, Vehicle4.updA m it.1 it.2.2) := by
        unfold Vehicle4.dispStep
        rw [hf]
      rw [List.foldl_cons, hd]
      exact hfinish w
        (dispFold_lookup rest w (Vehicle4.updA m it.1 it.2.2)
          (fun it2 h2 hs2 => hw it2 (List.mem_cons_of_mem it h2) hs2) hone' l)

/-- C7: after cancellation the consumer's final report has exactly one entry
per configured lane (in configuration order), each equal to the last count
the consumer processed for that lane before shutdown and 0 for a lane from
which no item was ever processed; the items still queued at cancellation are
drained without being processed and do not affect the report.  The
hypotheses state that processed items come from configured lanes and that
each lane publishes at most one terminal sentinel. -/
theorem final_report_complete (lane_list : List String)
    (processed queued : List Vehicle4.Item)
    (hmem : ∀ it ∈ processed, it.1 ∈ lane_list)
    (hone : ∀ it ∈ processed, it.2.1 = none →
      Vehicle4.sentinels it.1 processed ≤ 1) :
    (Vehicle4.display_shutdown lane_list processed queued).map Prod.fst = lane_list ∧
    ∀ l ∈ lane_list,
      Vehicle4.lookupA (Vehicle4.display_shutdown lane_list processed queued) l =
        some ((Vehicle4.lastCount l processed).getD 0) := by
  have hinit : ((lane_list.map fun x => (x, 0)).map Prod.fst : List String) = lane_list := by
    rw [List.map_map]
    exact List.map_id lane_list
  simp only [Vehicle4.display_shutdown]
  constructor
  · rw [dispFold_keys processed lane_list _ (fun it h => by
      rw [hinit]
      exact hmem it h), hinit]
  · intro l hl
    rw [dispFold_lookup processed lane_list _ (fun it h _ => hmem it h) hone l]
    rcases hlast : Vehicle4.lastCount l processed with _ | c
    · simp [lookupA_init lane_list l hl]
    · simp

/-- Witness for C7: two processed items on `Lane 1` (a frame with count 2,
then the sentinel with count 5) and one still-queued item on `Lane 2`; the
report lists both configured lanes, with 5 for `Lane 1` and 0 for the
never-processed `Lane 2`. -/
theorem final_report_complete_witness :
    (Vehicle4.display_shutdown ["Lane 1", "Lane 2"]
        [("Lane 1", some [], 2), ("Lane 1", none, 5)]
        [("Lane 2", some [], 9)]).map Prod.fst = ["Lane 1", "Lane 2"] ∧
    ∀ l ∈ ["Lane 1", "Lane 2"],
      Vehicle4.lookupA (Vehicle4.display_shutdown ["Lane 1", "Lane 2"]
          [("Lane 1", some [], 2), ("Lane 1", none, 5)]
          [("Lane 2", some [], 9)]) l =
        some ((Vehicle4.lastCount l
          [("Lane 1", some [], 2), ("Lane 1", none, 5)]).getD 0) :=
  final_report_complete ["Lane 1", "Lane 2"]
    [("Lane 1", some [], 2), ("Lane 1", none, 5)] [("Lane 2", some [], 9)]
    (by decide) (by decide)

/-- Witness for C1 at the spec's tie-break example `{A: 3, B: 5, C: 5}`:
the first lane reaching the maximum (`B`) is selected, not `C`. -/
theorem first_max_selection_witness :
    Sumo.get_lane_with_max_vehicles [("A", 3), ("B", 5), ("C", 5)] 0 = "B" ∧
    TrafficControl.get_lane_with_max_vehicles [("A", 3), ("B", 5), ("C", 5)] 0 = "B" := by
  obtain ⟨p, hf, hp2, h1, h2⟩ :=
    first_max_selection [("A", 3), ("B", 5), ("C", 5)] 0 ⟨("B", 5), by decide, by decide⟩
  have hp : p = ("B", 5) := by
    have : some (("B", 5) : String × Nat) = some p := by rw [← hf]; rfl
    exact (Option.some.inj this).symm
  rw [h1, h2, hp]
  exact ⟨rfl, rfl⟩
